import Mathlib

/-!
Verification of `startup_cofounder_agent`: a shallow embedding of the
outline parser inside `generator.generate_pitch_deck_outline`, the
configuration checks of `generator._ensure_openai` / `generator._chat_completion`,
and the deck assembler `ppt_generator.create_pitch_deck`.

Python strings are modelled as `List Char`; Python string operations
(`strip`, `lstrip`, `split(sep, 1)`, `splitlines`, `split`, `replace`) are
translated below.  `str.strip` is modelled over the ASCII whitespace
characters; the rarer Unicode whitespace and line terminators recognised by
Python are not modelled.
-/

namespace StartupCofounderAgent

/-- A Python string, modelled as its list of characters. -/
abbrev Str := List Char

/-- ASCII whitespace, as recognised by Python's `str.strip()` (space, tab,
newline, carriage return, vertical tab, form feed). -/
def isPySpace (c : Char) : Bool :=
  c == ' ' || c == '\t' || c == '\n' || c == '\r' || c == '\x0b' || c == '\x0c'

/-- Python `s.lstrip()`: drop leading whitespace. -/
def ltrim (s : Str) : Str := s.dropWhile isPySpace

/-- Python `s.rstrip()`: drop trailing whitespace. -/
def rtrim (s : Str) : Str := (ltrim s.reverse).reverse

/-- Python `s.strip()`: drop leading and trailing whitespace. -/
def pyStrip (s : Str) : Str := rtrim (ltrim s)

/-- Python `s.lstrip("- ")` as used on slide content: drop leading dash and
space characters. -/
def lstripDashSpace (s : Str) : Str := s.dropWhile (fun c => c == '-' || c == ' ')

/-- Python `s.split(c, 1)` combined with the preceding `c in s` test:
`some (before, after)` splits at the first occurrence of `c`, `none` when
`c` does not occur. -/
def splitFirst (c : Char) : Str → Option (Str × Str)
  | [] => none
  | x :: xs =>
    if x = c then some ([], xs)
    else
      match splitFirst c xs with
      | none => none
      | some (a, b) => some (x :: a, b)

/-- Prepend a character to the first line of an already-split list of lines. -/
def consHead (c : Char) : List Str → List Str
  | [] => [[c]]
  | l :: ls => (c :: l) :: ls

/-- Python `s.splitlines()` over the common line terminators
`"\n"`, `"\r\n"` and `"\r"`: no trailing empty line is produced for a
trailing terminator, and `"".splitlines() == []`. -/
def splitlines : Str → List Str
  | [] => []
  | '\r' :: '\n' :: rest => [] :: splitlines rest
  | '\n' :: rest => [] :: splitlines rest
  | '\r' :: rest => [] :: splitlines rest
  | c :: rest => consHead c (splitlines rest)

/-- One slide record, `{"title": ..., "content": ...}` as built by the
outline parser in `generate_pitch_deck_outline`. -/
structure Slide where
  title : Str
  content : Str
deriving DecidableEq, Repr

/-- The fallback title, `"Pitch Deck"`. -/
def pitchDeckTitle : Str := ("Pitch Deck").toList

/-- The per-line step of the parsing loop of `generate_pitch_deck_outline`
(generator.py lines 211-224): skip blank lines, split off the ordinal at the
first `.`, strip the remainder, split title from content at the first `:`,
strip the title, and strip then `lstrip("- ")` the content.  A line that
fails the `"." in line` or `":" in rest` test contributes nothing. -/
def parseLineStep (line : Str) : Option Slide :=
  if pyStrip line = [] then none
  else
    match splitFirst '.' line with
    | none => none
    | some (_, rest0) =>
      let rest := pyStrip rest0
      match splitFirst ':' rest with
      | none => none
      | some (title0, content0) =>
        some ⟨pyStrip title0, lstripDashSpace (pyStrip content0)⟩

/-- The outline parse step of `generate_pitch_deck_outline` (generator.py
lines 208-230): run `parseLineStep` over the lines of the raw completion
text, and fall back to the single record `{"title": "Pitch Deck",
"content": raw}` when no line parsed.  The Python `try/except` around the
loop is unreachable for this pure computation, so the embedding is the loop
itself; totality of this function models "never raises a hard error". -/
def parseOutline (raw : Str) : List Slide :=
  let slides := (splitlines raw).filterMap parseLineStep
  if slides.isEmpty then [⟨pitchDeckTitle, raw⟩] else slides

/-! ### Configuration model for `_ensure_openai` and `_chat_completion` -/

/-- The ambient configuration seen by `generator.py`: whether `import openai`
succeeded (lines 25-28), the `api_key` argument, and the value of the
`OPENAI_API_KEY` environment variable (`none` models an unset variable). -/
structure Config where
  openaiAvailable : Bool
  apiKeyArg : Option Str
  envKey : Option Str
deriving DecidableEq, Repr

/-- Python truthiness of `key` in `if not key:`: `None` and `""` are falsy. -/
def keyFalsy : Option Str → Bool
  | none => true
  | some k => k.isEmpty

/-- Python `api_key or os.getenv("OPENAI_API_KEY")`: the right operand when
the left is `None` or the empty string. -/
def pyOr (a b : Option Str) : Option Str :=
  match a with
  | none => b
  | some k => if k.isEmpty then b else some k

/-- The message raised when the `openai` package is not importable. -/
def openaiMissingMsg : Str :=
  ("The openai package is not installed. Install it with `pip install openai`.").toList

/-- The message raised when no API key is configured. -/
def noApiKeyMsg : Str :=
  ("No OpenAI API key was provided. Set the OPENAI_API_KEY environment variable or pass api_key explicitly.").toList

/-- `generator._ensure_openai` (lines 33-53): `RuntimeError` if the package
is missing or no key resolves; otherwise the resolved key (the assignment to
the module-global `openai.api_key` is modelled by returning the key). -/
def ensure_openai (cfg : Config) : Except Str Str :=
  if !cfg.openaiAvailable then Except.error openaiMissingMsg
  else
    match pyOr cfg.apiKeyArg cfg.envKey with
    | none => Except.error noApiKeyMsg
    | some k => if k.isEmpty then Except.error noApiKeyMsg else Except.ok k

/-- The outcome of the one network call in `_chat_completion`: the
`ChatCompletion.create` call raises, the response has an unexpected shape
(the extraction on line 87 raises), or a content string comes back. -/
inductive NetOutcome where
  | callRaises (exc : Str)
  | badShape (exc : Str)
  | content (text : Str)
deriving DecidableEq, Repr

/-- `generator._chat_completion` (lines 56-89): check configuration first,
then perform the network call, wrapping a raised exception as
`RuntimeError("Failed to call OpenAI API: ...")`, a malformed response as
`RuntimeError("Unexpected response format from OpenAI API: ...")`, and
stripping the returned content. -/
def chat_completion (cfg : Config) (net : NetOutcome) : Except Str Str :=
  match ensure_openai cfg with
  | Except.error e => Except.error e
  | Except.ok _ =>
    match net with
    | NetOutcome.callRaises exc =>
      Except.error (("Failed to call OpenAI API: ").toList ++ exc)
    | NetOutcome.badShape exc =>
      Except.error (("Unexpected response format from OpenAI API: ").toList ++ exc)
    | NetOutcome.content text => Except.ok (pyStrip text)

/-- `generator.generate_pitch_deck_outline` (lines 179-230): obtain the raw
completion text and parse it into slide records. -/
def generate_pitch_deck_outline (cfg : Config) (net : NetOutcome) :
    Except Str (List Slide) :=
  (chat_completion cfg net).map parseOutline

/-! ### Deck assembler `ppt_generator.create_pitch_deck` -/

/-- One input dictionary as consumed by `create_pitch_deck`: either key may
be absent (`slide_data.get("title", "")` / `slide_data.get("content", "")`). -/
structure SlideDict where
  title? : Option Str
  content? : Option Str
deriving DecidableEq, Repr

/-- Python `content.replace(";", "\n")`. -/
def replaceSemi (s : Str) : Str := s.map (fun c => if c = ';' then '\n' else c)

/-- Python `s.split(c)` (no maxsplit): keeps empty pieces, `"" -> [""]`. -/
def splitOnChar (c : Char) : Str → List Str
  | [] => [[]]
  | x :: xs => if x = c then [] :: splitOnChar c xs else consHead x (splitOnChar c xs)

/-- ppt_generator.py line 61: `[line.strip() for line in
content.replace(";", "\n").split("\n") if line.strip()]`. -/
def bulletLines (content : Str) : List Str :=
  ((splitOnChar '\n' (replaceSemi content)).map pyStrip).filter (fun l => l ≠ [])

/-- One rendered slide of the produced presentation: the layout index chosen
on lines 43-46, the title set on line 50, and the body bullet paragraphs
added on lines 64-73.  The python-pptx placeholder objects themselves are
external; this records the data pushed into them. -/
structure RenderedSlide where
  layoutIndex : Nat
  title : Str
  bullets : List Str
deriving DecidableEq, Repr

/-- `ppt_generator.create_pitch_deck` (lines 22-76), with the python-pptx
side effects abstracted into the returned list of rendered slides and the
file write dropped (the `output_path` argument only feeds `prs.save`).
`ValueError` on an empty slide list is the `Except.error` branch. -/
def create_pitch_deck (slides : List SlideDict) : Except Str (List RenderedSlide) :=
  if slides.isEmpty then
    Except.error (("No slides provided to create_pitch_deck().").toList)
  else
    Except.ok (slides.enum.map (fun p =>
      { layoutIndex := if p.1 = 0 then 0 else 1
        title := (p.2.title?).getD []
        bullets := bulletLines ((p.2.content?).getD []) }))

/-! ### Claim-side descriptions of line shapes -/

/-- `lacksStructure l` is the claim-side description of a line the parser
skips: the line has no `.`, or no `:` occurs after its first `.`. -/
def lacksStructure (l : Str) : Bool :=
  match splitFirst '.' l with
  | none => true
  | some (_, r) => !(r.elem ':')

/-- Join lines with `"\n"`, the inverse of `splitlines` on terminator-free
non-empty lines. -/
def joinLines : List Str → Str
  | [] => []
  | [l] => l
  | l :: ls => l ++ '\n' :: joinLines ls

/-- The parts of one well-formed outline line
`"<n>. <title>: <bullets>"`: the ordinal `num`, the `title` and the
bullet text. -/
structure OutlineLine where
  num : Str
  title : Str
  bullets : Str
deriving DecidableEq, Repr

/-- A well-formed outline line: a non-empty numeric ordinal, a colon-free
title, and no line terminators anywhere. -/
def wellFormedLine (ol : OutlineLine) : Prop :=
  ol.num ≠ [] ∧ (∀ c ∈ ol.num, c.isDigit = true) ∧
  ':' ∉ ol.title ∧ '\n' ∉ ol.title ∧ '\r' ∉ ol.title ∧
  '\n' ∉ ol.bullets ∧ '\r' ∉ ol.bullets

instance (ol : OutlineLine) : Decidable (wellFormedLine ol) := by
  unfold wellFormedLine
  infer_instance

/-- The text of a well-formed outline line, `"<n>. <title>: <bullets>"`. -/
def lineOf (ol : OutlineLine) : Str :=
  ol.num ++ '.' :: ' ' :: (ol.title ++ ':' :: ' ' :: ol.bullets)

/-- The record the code produces for a well-formed outline line: the
stripped title, and the stripped bullet text with leading `"-"` and `" "`
characters removed (`content.strip().lstrip("- ")`). -/
def recordOf (ol : OutlineLine) : Slide :=
  ⟨pyStrip ol.title, lstripDashSpace (pyStrip ol.bullets)⟩

/-! ### Lemmas about the string primitives -/

theorem mem_dropWhile_of_mem (p : Char → Bool) {c : Char} {s : Str}
    (hc : c ∈ s) (hp : p c = false) : c ∈ s.dropWhile p := by
  induction s with
  | nil => cases hc
  | cons x xs ih =>
    rw [List.dropWhile_cons]
    rcases List.mem_cons.mp hc with h | h
    · subst h
      rw [hp]
      simp
    · by_cases hx : p x
      · simpa [hx] using ih h
      · simp [hx, h]

theorem mem_of_mem_dropWhile (p : Char → Bool) {c : Char} {s : Str}
    (hc : c ∈ s.dropWhile p) : c ∈ s :=
  (List.dropWhile_sublist p).mem hc

theorem dropWhile_append_cons (p : Char → Bool) (xs ys : Str) (c : Char)
    (hp : p c = false) :
    List.dropWhile p (xs ++ c :: ys) = List.dropWhile p xs ++ c :: ys := by
  rw [List.dropWhile_append]
  by_cases h : (List.dropWhile p xs).isEmpty
  · rw [if_pos h, List.dropWhile_cons, hp, List.isEmpty_iff.mp h]
    simp
  · rw [if_neg h]

theorem ltrim_append_cons (xs ys : Str) (c : Char) (hc : isPySpace c = false) :
    ltrim (xs ++ c :: ys) = ltrim xs ++ c :: ys :=
  dropWhile_append_cons isPySpace xs ys c hc

theorem rtrim_append_cons (xs ys : Str) (c : Char) (hc : isPySpace c = false) :
    rtrim (xs ++ c :: ys) = xs ++ c :: rtrim ys := by
  unfold rtrim
  rw [show (xs ++ c :: ys).reverse = ys.reverse ++ c :: xs.reverse by simp,
    ltrim_append_cons ys.reverse xs.reverse c hc]
  simp [ltrim]

theorem ltrim_cons_space (c : Char) (s : Str) (hc : isPySpace c = true) :
    ltrim (c :: s) = ltrim s := by
  simp [ltrim, List.dropWhile_cons, hc]

theorem ltrim_cons_not_space (c : Char) (s : Str) (hc : isPySpace c = false) :
    ltrim (c :: s) = c :: s := by
  simp [ltrim, List.dropWhile_cons, hc]

theorem rtrim_cons_not_space (c : Char) (s : Str) (hc : isPySpace c = false) :
    rtrim (c :: s) = c :: rtrim s := by
  simpa using rtrim_append_cons [] s c hc

theorem ltrim_idem (s : Str) : ltrim (ltrim s) = ltrim s :=
  List.dropWhile_idempotent isPySpace s

theorem pyStrip_cons_space (c : Char) (s : Str) (hc : isPySpace c = true) :
    pyStrip (c :: s) = pyStrip s := by
  simp [pyStrip, ltrim_cons_space c s hc]

theorem pyStrip_ltrim (s : Str) : pyStrip (ltrim s) = pyStrip s := by
  simp [pyStrip, ltrim_idem]

theorem ltrim_eq_nil_append (xs ys : Str) (h : ltrim xs = []) :
    ltrim (xs ++ ys) = ltrim ys := by
  have h' : (List.dropWhile isPySpace xs).isEmpty = true := by
    rw [List.isEmpty_iff]
    exact h
  rw [ltrim, List.dropWhile_append, if_pos h']
  rfl

theorem rtrim_eq_nil_iff_ltrim_reverse (s : Str) :
    rtrim s = [] ↔ ltrim s.reverse = [] := by
  unfold rtrim
  simp

theorem rtrim_cons_space_of_rtrim_nil (c : Char) (s : Str) (hc : isPySpace c = true)
    (h : rtrim s = []) : rtrim (c :: s) = [] := by
  have h1 : ltrim s.reverse = [] := (rtrim_eq_nil_iff_ltrim_reverse s).mp h
  unfold rtrim
  rw [show (c :: s).reverse = s.reverse ++ [c] by simp,
    ltrim_eq_nil_append s.reverse [c] h1, ltrim_cons_space c [] hc]
  rfl

theorem ltrim_append_of_ne_nil (xs ys : Str) (h : ltrim xs ≠ []) :
    ltrim (xs ++ ys) = ltrim xs ++ ys := by
  have h' : ¬(List.dropWhile isPySpace xs).isEmpty = true := by
    rw [List.isEmpty_iff]
    exact h
  rw [ltrim, List.dropWhile_append, if_neg h']
  rfl

theorem rtrim_cons_space_of_rtrim_ne_nil (c : Char) (s : Str)
    (h : rtrim s ≠ []) : rtrim (c :: s) = c :: rtrim s := by
  have h1 : ltrim s.reverse ≠ [] := fun hx =>
    h ((rtrim_eq_nil_iff_ltrim_reverse s).mpr hx)
  unfold rtrim
  rw [show (c :: s).reverse = s.reverse ++ [c] by simp,
    ltrim_append_of_ne_nil s.reverse [c] h1]
  simp

theorem ltrim_rtrim_comm (s : Str) : ltrim (rtrim s) = rtrim (ltrim s) := by
  induction s with
  | nil => simp [ltrim, rtrim]
  | cons c s ih =>
    by_cases hc : isPySpace c
    · by_cases hr : rtrim s = []
      · rw [rtrim_cons_space_of_rtrim_nil c s hc hr, ltrim_cons_space c s hc, ← ih, hr]
      · rw [rtrim_cons_space_of_rtrim_ne_nil c s hr, ltrim_cons_space c s hc,
          ltrim_cons_space c (rtrim s) hc, ih]
    · rw [rtrim_cons_not_space c s (by simpa using hc),
        ltrim_cons_not_space c (rtrim s) (by simpa using hc),
        ltrim_cons_not_space c s (by simpa using hc),
        rtrim_cons_not_space c s (by simpa using hc)]

theorem rtrim_idem (s : Str) : rtrim (rtrim s) = rtrim s := by
  unfold rtrim
  simp [ltrim_idem]

theorem pyStrip_rtrim (s : Str) : pyStrip (rtrim s) = pyStrip s := by
  rw [pyStrip, ltrim_rtrim_comm, rtrim_idem, pyStrip]

theorem mem_ltrim_of_mem {c : Char} {s : Str} (hc : c ∈ s)
    (hp : isPySpace c = false) : c ∈ ltrim s :=
  mem_dropWhile_of_mem isPySpace hc hp

theorem mem_rtrim_of_mem {c : Char} {s : Str} (hc : c ∈ s)
    (hp : isPySpace c = false) : c ∈ rtrim s := by
  unfold rtrim
  rw [List.mem_reverse]
  exact mem_ltrim_of_mem (List.mem_reverse.mpr hc) hp

theorem mem_pyStrip_of_mem {c : Char} {s : Str} (hc : c ∈ s)
    (hp : isPySpace c = false) : c ∈ pyStrip s :=
  mem_rtrim_of_mem (mem_ltrim_of_mem hc hp) hp

theorem pyStrip_ne_nil_of_mem {c : Char} {s : Str} (hc : c ∈ s)
    (hp : isPySpace c = false) : pyStrip s ≠ [] :=
  List.ne_nil_of_mem (mem_pyStrip_of_mem hc hp)

theorem mem_of_mem_ltrim {c : Char} {s : Str} (hc : c ∈ ltrim s) : c ∈ s :=
  mem_of_mem_dropWhile isPySpace hc

theorem mem_of_mem_rtrim {c : Char} {s : Str} (hc : c ∈ rtrim s) : c ∈ s := by
  unfold rtrim at hc
  rw [List.mem_reverse] at hc
  exact List.mem_reverse.mp (mem_of_mem_ltrim hc)

theorem mem_of_mem_pyStrip {c : Char} {s : Str} (hc : c ∈ pyStrip s) : c ∈ s :=
  mem_of_mem_ltrim (mem_of_mem_rtrim hc)

theorem splitFirst_eq_none {c : Char} {s : Str} (h : c ∉ s) :
    splitFirst c s = none := by
  induction s with
  | nil => rfl
  | cons x xs ih =>
    have hx : ¬x = c := fun hxc => h (by simp [hxc])
    simp only [splitFirst, if_neg hx, ih (fun hm => h (List.mem_cons_of_mem x hm))]

theorem splitFirst_append {c : Char} (xs ys : Str) (h : c ∉ xs) :
    splitFirst c (xs ++ c :: ys) = some (xs, ys) := by
  induction xs with
  | nil => simp [splitFirst]
  | cons x xs ih =>
    have hx : ¬x = c := fun hxc => h (by simp [hxc])
    have ih' := ih (fun hm => h (List.mem_cons_of_mem x hm))
    simp only [List.cons_append, splitFirst, if_neg hx, List.append_eq, ih']

/-! ### Lemmas about the parsing step -/

/-- A line that is an ordinal prefix, a dot, a colon-free middle, a colon
and a tail parses into the record whose title is the stripped middle and
whose content is the stripped tail with leading dashes and spaces removed. -/
theorem parseLineStep_structured (n t r : Str) (hn : '.' ∉ n) (ht : ':' ∉ t) :
    parseLineStep (n ++ '.' :: (t ++ ':' :: r)) =
      some ⟨pyStrip t, lstripDashSpace (pyStrip r)⟩ := by
  have hdotmem : ('.' : Char) ∈ n ++ '.' :: (t ++ ':' :: r) := by simp
  have hblank : ¬pyStrip (n ++ '.' :: (t ++ ':' :: r)) = [] :=
    pyStrip_ne_nil_of_mem hdotmem (by decide)
  have hsplit1 : splitFirst '.' (n ++ '.' :: (t ++ ':' :: r)) =
      some (n, t ++ ':' :: r) := splitFirst_append n (t ++ ':' :: r) hn
  have hrest : pyStrip (t ++ ':' :: r) = ltrim t ++ ':' :: rtrim r := by
    rw [pyStrip, ltrim_append_cons t r ':' (by decide),
      rtrim_append_cons (ltrim t) r ':' (by decide)]
  have htl : ':' ∉ ltrim t := fun hm => ht (mem_of_mem_ltrim hm)
  have hsplit2 : splitFirst ':' (ltrim t ++ ':' :: rtrim r) =
      some (ltrim t, rtrim r) := splitFirst_append (ltrim t) (rtrim r) htl
  rw [parseLineStep, if_neg hblank, hsplit1]
  simp only [hrest, hsplit2, pyStrip_ltrim, pyStrip_rtrim]

/-- A blank line contributes nothing. -/
theorem parseLineStep_blank (l : Str) (h : pyStrip l = []) :
    parseLineStep l = none := by
  rw [parseLineStep, if_pos h]

/-- A line with no `.`, or with no `:` after its first `.`, contributes
nothing. -/
theorem parseLineStep_lacksStructure (l : Str) (h : lacksStructure l = true) :
    parseLineStep l = none := by
  rw [parseLineStep]
  by_cases hb : pyStrip l = []
  · rw [if_pos hb]
  · rw [if_neg hb]
    unfold lacksStructure at h
    cases hs : splitFirst '.' l with
    | none => rfl
    | some p =>
      obtain ⟨a, b⟩ := p
      rw [hs] at h
      have hc : ':' ∉ b := by simpa [List.elem_iff] using h
      have hc2 : ':' ∉ pyStrip b := fun hm => hc (mem_of_mem_pyStrip hm)
      dsimp only
      rw [splitFirst_eq_none hc2]

/-- A line the parser accepts has passed the blank, `.` and `:` tests; its
record is determined by the two splits.  (Characterisation used to carry a
parsed line through `filterMap`.) -/
theorem parseLineStep_isSome_mem_filterMap (l : Str) (ls : List Str)
    (hmem : l ∈ ls) (h : (parseLineStep l).isSome = true) :
    ls.filterMap parseLineStep ≠ [] := by
  obtain ⟨s, hs⟩ := Option.isSome_iff_exists.mp h
  exact List.ne_nil_of_mem (List.mem_filterMap.mpr ⟨l, hmem, hs⟩)

/-- Pointwise-`some` `filterMap` is a `map`. -/
theorem filterMap_eq_map_of_all_some {α β : Type} (f : α → Option β)
    (g : α → β) (l : List α) (h : ∀ x ∈ l, f x = some (g x)) :
    l.filterMap f = l.map g := by
  induction l with
  | nil => rfl
  | cons x xs ih =>
    rw [List.filterMap_cons, h x (by simp), List.map_cons,
      ih (fun y hy => h y (List.mem_cons_of_mem x hy))]

/-! ### Lemmas about `splitlines` and joining lines -/

theorem splitlines_cons_other (c : Char) (rest : Str) (h1 : c ≠ '\n')
    (h2 : c ≠ '\r') : splitlines (c :: rest) = consHead c (splitlines rest) := by
  rw [splitlines.eq_def]
  split
  · simp_all
  · simp_all
  · simp_all
  · simp_all
  · simp_all

theorem splitlines_append_newline (l rest : Str) (h1 : '\n' ∉ l)
    (h2 : '\r' ∉ l) : splitlines (l ++ '\n' :: rest) = l :: splitlines rest := by
  induction l with
  | nil => rfl
  | cons c cs ih =>
    have hc1 : c ≠ '\n' := fun h => h1 (by simp [h])
    have hc2 : c ≠ '\r' := fun h => h2 (by simp [h])
    rw [List.cons_append, splitlines_cons_other c _ hc1 hc2,
      ih (fun hm => h1 (List.mem_cons_of_mem c hm))
        (fun hm => h2 (List.mem_cons_of_mem c hm))]
    rfl

theorem splitlines_no_terminator (l : Str) (h1 : '\n' ∉ l) (h2 : '\r' ∉ l)
    (h3 : l ≠ []) : splitlines l = [l] := by
  induction l with
  | nil => exact absurd rfl h3
  | cons c cs ih =>
    have hc1 : c ≠ '\n' := fun h => h1 (by simp [h])
    have hc2 : c ≠ '\r' := fun h => h2 (by simp [h])
    rw [splitlines_cons_other c cs hc1 hc2]
    by_cases hcs : cs = []
    · subst hcs
      rfl
    · rw [ih (fun hm => h1 (List.mem_cons_of_mem c hm))
        (fun hm => h2 (List.mem_cons_of_mem c hm)) hcs]
      rfl

theorem splitlines_joinLines (lines : List Str) (hne : lines ≠ [])
    (hl : ∀ l ∈ lines, '\n' ∉ l ∧ '\r' ∉ l ∧ l ≠ []) :
    splitlines (joinLines lines) = lines := by
  induction lines with
  | nil => exact absurd rfl hne
  | cons l ls ih =>
    obtain ⟨h1, h2, h3⟩ := hl l (by simp)
    cases ls with
    | nil => exact splitlines_no_terminator l h1 h2 h3
    | cons l2 ls2 =>
      rw [show joinLines (l :: l2 :: ls2) = l ++ '\n' :: joinLines (l2 :: ls2)
          from rfl,
        splitlines_append_newline l _ h1 h2,
        ih (by simp) (fun y hy => hl y (List.mem_cons_of_mem l hy))]

theorem not_mem_lineOf (ol : OutlineLine) (c : Char) (h1 : c ∉ ol.num)
    (h2 : c ≠ '.') (h3 : c ≠ ' ') (h4 : c ∉ ol.title) (h5 : c ≠ ':')
    (h6 : c ∉ ol.bullets) : c ∉ lineOf ol := by
  intro hm
  unfold lineOf at hm
  rcases List.mem_append.mp hm with hm | hm
  · exact h1 hm
  · rcases List.mem_cons.mp hm with hm | hm
    · exact h2 hm
    · rcases List.mem_cons.mp hm with hm | hm
      · exact h3 hm
      · rcases List.mem_append.mp hm with hm | hm
        · exact h4 hm
        · rcases List.mem_cons.mp hm with hm | hm
          · exact h5 hm
          · rcases List.mem_cons.mp hm with hm | hm
            · exact h3 hm
            · exact h6 hm

theorem lineOf_no_terminator (ol : OutlineLine) (h : wellFormedLine ol) :
    '\n' ∉ lineOf ol ∧ '\r' ∉ lineOf ol ∧ lineOf ol ≠ [] := by
  obtain ⟨hnum, hdig, hcol, ht1, ht2, hb1, hb2⟩ := h
  refine ⟨?_, ?_, ?_⟩
  · exact not_mem_lineOf ol '\n' (fun hm => absurd (hdig _ hm) (by decide))
      (by decide) (by decide) ht1 (by decide) hb1
  · exact not_mem_lineOf ol '\r' (fun hm => absurd (hdig _ hm) (by decide))
      (by decide) (by decide) ht2 (by decide) hb2
  · simp [lineOf]

theorem parseLineStep_lineOf (ol : OutlineLine) (h : wellFormedLine ol) :
    parseLineStep (lineOf ol) = some (recordOf ol) := by
  obtain ⟨hnum, hdig, hcol, ht1, ht2, hb1, hb2⟩ := h
  have hdot : '.' ∉ ol.num := fun hm => absurd (hdig _ hm) (by decide)
  have hcolt : ':' ∉ ' ' :: ol.title := by
    intro hm
    rcases List.mem_cons.mp hm with hm | hm
    · exact absurd hm (by decide)
    · exact hcol hm
  have hst := parseLineStep_structured ol.num (' ' :: ol.title)
    (' ' :: ol.bullets) hdot hcolt
  rw [show lineOf ol =
      ol.num ++ '.' :: ((' ' :: ol.title) ++ ':' :: (' ' :: ol.bullets))
      from rfl, hst]
  unfold recordOf
  rw [pyStrip_cons_space ' ' ol.title (by decide),
    pyStrip_cons_space ' ' ol.bullets (by decide)]

/-! ### The claims -/

/-- Claim C1: for every input string `raw`, the parse step of
`generate_pitch_deck_outline` is a total function (no hard error) whose
result is a non-empty list of slide records: when no line parses, the
single fallback record is emitted, so the result is never empty. -/
theorem C1_parser_output_nonempty (raw : Str) : 0 < (parseOutline raw).length := by
  rw [show parseOutline raw =
      (if ((splitlines raw).filterMap parseLineStep).isEmpty
        then [⟨pitchDeckTitle, raw⟩]
        else (splitlines raw).filterMap parseLineStep) from rfl]
  by_cases h : ((splitlines raw).filterMap parseLineStep).isEmpty
  · rw [if_pos h]
    simp
  · rw [if_neg h]
    exact List.length_pos.mpr (by simpa [List.isEmpty_iff] using h)

/-- Claim C2: when no line of the input contains both a `.` and a `:`
after the first `.` (which covers the empty and whitespace-only inputs),
the parse step returns exactly one fallback record with title
`"Pitch Deck"` and content equal to the raw input unmodified. -/
theorem C2_fallback_record (raw : Str)
    (h : ∀ l ∈ splitlines raw, lacksStructure l = true) :
    parseOutline raw = [⟨pitchDeckTitle, raw⟩] := by
  have hfm : (splitlines raw).filterMap parseLineStep = [] := by
    rw [List.filterMap_eq_nil_iff]
    exact fun a ha => parseLineStep_lacksStructure a (h a ha)
  rw [show parseOutline raw =
      (if ((splitlines raw).filterMap parseLineStep).isEmpty
        then [⟨pitchDeckTitle, raw⟩]
        else (splitlines raw).filterMap parseLineStep) from rfl, hfm]
  rfl

/-- Witness for C2 at the spec's concrete scenario
`"Slide one stuff\nmore stuff"`. -/
theorem C2_fallback_record_witness :
    parseOutline (("Slide one stuff\nmore stuff").toList) =
      [⟨pitchDeckTitle, ("Slide one stuff\nmore stuff").toList⟩] :=
  C2_fallback_record _ (by decide)

/-- Claim C3 as stated is false at the well-formed line
`"1. Problem: - customers lack X; they waste Y"`: the trimmed substring
after the first `:` is `"- customers lack X; they waste Y"`, but the code
further strips the leading dash and space (`lstrip("- ")`), so the record's
content is `"customers lack X; they waste Y"`. -/
theorem C3_content_counterexample :
    wellFormedLine ⟨("1").toList, ("Problem").toList,
        ("- customers lack X; they waste Y").toList⟩ ∧
    lineOf ⟨("1").toList, ("Problem").toList,
        ("- customers lack X; they waste Y").toList⟩ =
      ("1. Problem: - customers lack X; they waste Y").toList ∧
    pyStrip ((" - customers lack X; they waste Y").toList) =
      ("- customers lack X; they waste Y").toList ∧
    parseOutline (("1. Problem: - customers lack X; they waste Y").toList) =
      [⟨("Problem").toList, ("customers lack X; they waste Y").toList⟩] ∧
    (("customers lack X; they waste Y").toList : Str) ≠
      ("- customers lack X; they waste Y").toList :=
  ⟨by decide, by decide, by decide, by decide, by decide⟩

/-- Claim C3 (amended): for every non-empty list of well-formed lines
`"<n>. <title>: <bullets>"`, the parse step returns one record per line in
input order, the title being the trimmed substring between the first `.`
and the first `:`, and the content being the trimmed substring after that
first `:` with leading `-` and space characters (bullet markers)
additionally removed. -/
theorem C3_wellformed_lines_parse (lines : List OutlineLine) (hne : lines ≠ [])
    (hw : ∀ ol ∈ lines, wellFormedLine ol) :
    parseOutline (joinLines (lines.map lineOf)) = lines.map recordOf := by
  have hmapne : lines.map lineOf ≠ [] := by
    simpa [List.map_eq_nil_iff] using hne
  have hgood : ∀ l ∈ lines.map lineOf, '\n' ∉ l ∧ '\r' ∉ l ∧ l ≠ [] := by
    intro l hl
    obtain ⟨ol, hol, rfl⟩ := List.mem_map.mp hl
    exact lineOf_no_terminator ol (hw ol hol)
  have hsl : splitlines (joinLines (lines.map lineOf)) = lines.map lineOf :=
    splitlines_joinLines _ hmapne hgood
  have hfm : (lines.map lineOf).filterMap parseLineStep = lines.map recordOf := by
    rw [List.filterMap_map]
    exact filterMap_eq_map_of_all_some _ recordOf lines
      (fun ol hol => parseLineStep_lineOf ol (hw ol hol))
  rw [show parseOutline (joinLines (lines.map lineOf)) =
      (if ((splitlines (joinLines (lines.map lineOf))).filterMap parseLineStep).isEmpty
        then [⟨pitchDeckTitle, joinLines (lines.map lineOf)⟩]
        else (splitlines (joinLines (lines.map lineOf))).filterMap parseLineStep)
      from rfl, hsl, hfm,
    if_neg (by simpa [List.isEmpty_iff, List.map_eq_nil_iff] using hne)]

/-- Witness for the amended C3: two well-formed lines parse to two records
in order. -/
theorem C3_wellformed_lines_parse_witness :
    parseOutline (joinLines
        (([⟨("1").toList, ("Problem").toList, ("customers lack X; they waste Y").toList⟩,
           ⟨("2").toList, ("Team").toList, ("alice; bob").toList⟩] :
          List OutlineLine).map lineOf)) =
      ([⟨("1").toList, ("Problem").toList, ("customers lack X; they waste Y").toList⟩,
        ⟨("2").toList, ("Team").toList, ("alice; bob").toList⟩] :
        List OutlineLine).map recordOf :=
  C3_wellformed_lines_parse _ (by decide) (by decide)

/-- Claim C4: a non-blank line lacking a `.`, or lacking a `:` after its
first `.`, contributes no record: removing such a line from the input does
not change the parse result, provided at least one remaining line parses. -/
theorem C4_malformed_line_skipped (xs ys : List Str) (m : Str)
    (hlines : ∀ l ∈ xs ++ m :: ys, '\n' ∉ l ∧ '\r' ∉ l ∧ l ≠ [])
    (_hmb : pyStrip m ≠ []) (hm : lacksStructure m = true)
    (hsome : ∃ l ∈ xs ++ ys, (parseLineStep l).isSome = true) :
    parseOutline (joinLines (xs ++ m :: ys)) =
      parseOutline (joinLines (xs ++ ys)) := by
  obtain ⟨l0, hl0, hl0s⟩ := hsome
  have hne1 : xs ++ m :: ys ≠ [] := by simp
  have hne2 : xs ++ ys ≠ [] := List.ne_nil_of_mem hl0
  have hlines2 : ∀ l ∈ xs ++ ys, '\n' ∉ l ∧ '\r' ∉ l ∧ l ≠ [] := by
    intro l hl
    apply hlines
    rcases List.mem_append.mp hl with h | h
    · exact List.mem_append.mpr (Or.inl h)
    · exact List.mem_append.mpr (Or.inr (List.mem_cons_of_mem m h))
  have hsl1 := splitlines_joinLines _ hne1 hlines
  have hsl2 := splitlines_joinLines _ hne2 hlines2
  have hfm : (xs ++ m :: ys).filterMap parseLineStep =
      (xs ++ ys).filterMap parseLineStep := by
    rw [List.filterMap_append, List.filterMap_append, List.filterMap_cons,
      parseLineStep_lacksStructure m hm]
  have hnonnil : (xs ++ ys).filterMap parseLineStep ≠ [] :=
    parseLineStep_isSome_mem_filterMap l0 _ hl0 hl0s
  have hempty : ¬((xs ++ ys).filterMap parseLineStep).isEmpty = true := by
    simpa [List.isEmpty_iff] using hnonnil
  rw [show parseOutline (joinLines (xs ++ m :: ys)) =
      (if ((splitlines (joinLines (xs ++ m :: ys))).filterMap parseLineStep).isEmpty
        then [⟨pitchDeckTitle, joinLines (xs ++ m :: ys)⟩]
        else (splitlines (joinLines (xs ++ m :: ys))).filterMap parseLineStep)
      from rfl,
    show parseOutline (joinLines (xs ++ ys)) =
      (if ((splitlines (joinLines (xs ++ ys))).filterMap parseLineStep).isEmpty
        then [⟨pitchDeckTitle, joinLines (xs ++ ys)⟩]
        else (splitlines (joinLines (xs ++ ys))).filterMap parseLineStep)
      from rfl,
    hsl1, hsl2, hfm, if_neg hempty, if_neg hempty]

/-- Witness for C4: the malformed line `"garbage"` between two well-formed
lines contributes nothing. -/
theorem C4_malformed_line_skipped_witness :
    ((∀ l ∈ [("1. A: x").toList] ++ ("garbage").toList :: [("2. B: y").toList],
        '\n' ∉ l ∧ '\r' ∉ l ∧ l ≠ []) ∧
      pyStrip (("garbage").toList) ≠ [] ∧
      lacksStructure (("garbage").toList) = true ∧
      (∃ l ∈ [("1. A: x").toList] ++ [("2. B: y").toList],
        (parseLineStep l).isSome = true)) ∧
    parseOutline (joinLines ([("1. A: x").toList] ++
        ("garbage").toList :: [("2. B: y").toList])) =
      parseOutline (joinLines ([("1. A: x").toList] ++ [("2. B: y").toList])) :=
  ⟨⟨by decide, by decide, by decide, by decide⟩,
    C4_malformed_line_skipped _ _ _ (by decide) (by decide) (by decide) (by decide)⟩

/-- Claim C5: when the remainder after the first `.` contains more than one
`:`, only the first `:` separates title from content, and the later colons
stay inside the content. -/
theorem C5_first_colon_splits (n t r1 r2 : Str) (hn : '.' ∉ n) (ht : ':' ∉ t) :
    parseLineStep (n ++ '.' :: (t ++ ':' :: (r1 ++ ':' :: r2))) =
      some ⟨pyStrip t, lstripDashSpace (pyStrip (r1 ++ ':' :: r2))⟩ ∧
    ':' ∈ lstripDashSpace (pyStrip (r1 ++ ':' :: r2)) := by
  refine ⟨parseLineStep_structured n t (r1 ++ ':' :: r2) hn ht, ?_⟩
  have h1 : (':' : Char) ∈ r1 ++ ':' :: r2 := by simp
  exact mem_dropWhile_of_mem _ (mem_pyStrip_of_mem h1 (by decide)) (by decide)

/-- Witness for C5 at the line `"1. A: x: y"`. -/
theorem C5_first_colon_splits_witness :
    (('.' ∉ (("1").toList : Str)) ∧ (':' ∉ (("A").toList : Str))) ∧
    (parseLineStep ((("1").toList : Str) ++ '.' :: ((("A").toList : Str) ++
        ':' :: (((" x").toList : Str) ++ ':' :: ((" y").toList : Str)))) =
      some ⟨pyStrip (("A").toList),
        lstripDashSpace (pyStrip (((" x").toList : Str) ++ ':' :: ((" y").toList : Str)))⟩ ∧
    ':' ∈ lstripDashSpace (pyStrip (((" x").toList : Str) ++ ':' :: ((" y").toList : Str)))) :=
  ⟨⟨by decide, by decide⟩, C5_first_colon_splits _ _ _ _ (by decide) (by decide)⟩

/-- Claim C6: when more than one `.` occurs before the `:` separator, only
the first `.` of the line is consumed as the ordinal delimiter; the later
dots stay inside the remainder, from which title and content are split. -/
theorem C6_first_dot_is_delimiter (n t1 t2 r : Str) (hn : '.' ∉ n)
    (ht : ':' ∉ t1 ++ '.' :: t2) :
    parseLineStep (n ++ '.' :: ((t1 ++ '.' :: t2) ++ ':' :: r)) =
      some ⟨pyStrip (t1 ++ '.' :: t2), lstripDashSpace (pyStrip r)⟩ ∧
    '.' ∈ pyStrip (t1 ++ '.' :: t2) := by
  refine ⟨parseLineStep_structured n (t1 ++ '.' :: t2) r hn ht, ?_⟩
  exact mem_pyStrip_of_mem (by simp) (by decide)

/-- Witness for C6 at the line `"10.5. Title: stuff"`. -/
theorem C6_first_dot_is_delimiter_witness :
    (('.' ∉ (("10").toList : Str)) ∧
      (':' ∉ ((("5").toList : Str) ++ '.' :: ((" Title").toList : Str)))) ∧
    (parseLineStep ((("10").toList : Str) ++ '.' :: (((("5").toList : Str) ++
        '.' :: ((" Title").toList : Str)) ++ ':' :: ((" stuff").toList : Str))) =
      some ⟨pyStrip ((("5").toList : Str) ++ '.' :: ((" Title").toList : Str)),
        lstripDashSpace (pyStrip ((" stuff").toList))⟩ ∧
    '.' ∈ pyStrip ((("5").toList : Str) ++ '.' :: ((" Title").toList : Str))) :=
  ⟨⟨by decide, by decide⟩,
    C6_first_dot_is_delimiter _ _ _ _ (by decide) (by decide)⟩

/-- Claim C7: `create_pitch_deck` applied to an empty slide list fails with
the `ValueError` precondition violation and produces no document. -/
theorem C7_empty_slides_error :
    create_pitch_deck [] =
      Except.error (("No slides provided to create_pitch_deck().").toList) := rfl

/-- Claim C8 as stated is false: the line `"1. : hello"` parses successfully
(not via the fallback) into a record whose title is the empty string. -/
theorem C8_empty_title_counterexample :
    parseLineStep (("1. : hello").toList) = some ⟨[], ("hello").toList⟩ ∧
    parseOutline (("1. : hello").toList) = [⟨[], ("hello").toList⟩] :=
  ⟨by decide, by decide⟩

/-- Claim C8 (amended): the title of a record parsed from a line is the
trimmed text between the first `.` and the first `:`, so it is non-empty
whenever that text contains a non-whitespace character (and empty when the
text is all whitespace, as the spec's data-model sentence itself allows). -/
theorem C8_title_nonempty_amended (n t r : Str) (hn : '.' ∉ n) (ht : ':' ∉ t)
    (hc : ∃ c ∈ t, isPySpace c = false) :
    ∃ s, parseLineStep (n ++ '.' :: (t ++ ':' :: r)) = some s ∧
      s.title ≠ [] := by
  obtain ⟨c, hct, hcs⟩ := hc
  exact ⟨_, parseLineStep_structured n t r hn ht, pyStrip_ne_nil_of_mem hct hcs⟩

/-- Witness for the amended C8 at the line `"1. Problem: x"`. -/
theorem C8_title_nonempty_amended_witness :
    (('.' ∉ (("1").toList : Str)) ∧ (':' ∉ ((" Problem").toList : Str)) ∧
      (∃ c ∈ ((" Problem").toList : Str), isPySpace c = false)) ∧
    (∃ s, parseLineStep ((("1").toList : Str) ++ '.' ::
        (((" Problem").toList : Str) ++ ':' :: ((" x").toList : Str))) = some s ∧
      s.title ≠ []) :=
  ⟨⟨by decide, by decide, by decide⟩,
    C8_title_nonempty_amended _ _ _ (by decide) (by decide) (by decide)⟩

/-- Claim C9: when the openai package is absent, or no API key is supplied
explicitly or through the environment, `_chat_completion` fails with the
configuration `RuntimeError`, and the result is independent of the network
outcome (the error is raised before any network call). -/
theorem C9_config_error_before_network (cfg : Config) (net net2 : NetOutcome)
    (h : cfg.openaiAvailable = false ∨
      keyFalsy (pyOr cfg.apiKeyArg cfg.envKey) = true) :
    (chat_completion cfg net = Except.error openaiMissingMsg ∨
      chat_completion cfg net = Except.error noApiKeyMsg) ∧
    chat_completion cfg net = chat_completion cfg net2 := by
  have hens : ensure_openai cfg = Except.error openaiMissingMsg ∨
      ensure_openai cfg = Except.error noApiKeyMsg := by
    rcases h with h | h
    · left
      simp [ensure_openai, h]
    · by_cases ha : cfg.openaiAvailable
      · right
        cases hk : pyOr cfg.apiKeyArg cfg.envKey with
        | none => simp [ensure_openai, ha, hk]
        | some k =>
          rw [hk] at h
          simp only [keyFalsy] at h
          simp [ensure_openai, ha, hk, h]
      · left
        have ha' : cfg.openaiAvailable = false := by simpa using ha
        simp [ensure_openai, ha']
  have hchat : ∀ (nt : NetOutcome) (e : Str),
      ensure_openai cfg = Except.error e →
      chat_completion cfg nt = Except.error e := by
    intro nt e he
    unfold chat_completion
    rw [he]
  rcases hens with he | he
  · exact ⟨Or.inl (hchat net _ he), (hchat net _ he).trans (hchat net2 _ he).symm⟩
  · exact ⟨Or.inr (hchat net _ he), (hchat net _ he).trans (hchat net2 _ he).symm⟩

/-- Witness for C9: with the package unavailable, the configuration error
is returned for two different network outcomes. -/
theorem C9_config_error_before_network_witness :
    ((Config.mk false none none).openaiAvailable = false ∨
      keyFalsy (pyOr (Config.mk false none none).apiKeyArg
        (Config.mk false none none).envKey) = true) ∧
    ((chat_completion (Config.mk false none none)
        (NetOutcome.content (("hi").toList)) = Except.error openaiMissingMsg ∨
      chat_completion (Config.mk false none none)
        (NetOutcome.content (("hi").toList)) = Except.error noApiKeyMsg) ∧
    chat_completion (Config.mk false none none)
        (NetOutcome.content (("hi").toList)) =
      chat_completion (Config.mk false none none)
        (NetOutcome.callRaises (("boom").toList))) :=
  ⟨Or.inl rfl, C9_config_error_before_network _ _ _ (Or.inl rfl)⟩

/-- Claim C10: `create_pitch_deck` accepts any non-empty slide list,
including records missing the `"title"` or `"content"` key (the `.get`
defaults supply the empty string), so the only input-validation error is
the empty-sequence `ValueError`. -/
theorem C10_missing_keys_accepted (slides : List SlideDict) (h : slides ≠ []) :
    ∃ out, create_pitch_deck slides = Except.ok out := by
  refine ⟨slides.enum.map (fun p =>
    { layoutIndex := if p.1 = 0 then 0 else 1
      title := (p.2.title?).getD []
      bullets := bulletLines ((p.2.content?).getD []) }), ?_⟩
  rw [create_pitch_deck, if_neg (by simpa [List.isEmpty_iff] using h)]

/-- Witness for C10: a one-element list whose record has both keys missing
is accepted. -/
theorem C10_missing_keys_accepted_witness :
    ([(SlideDict.mk none none)] ≠ []) ∧
    ∃ out, create_pitch_deck [SlideDict.mk none none] = Except.ok out :=
  ⟨by decide, C10_missing_keys_accepted _ (by decide)⟩

end StartupCofounderAgent
